import Mathlib

/-!
Verification of the audio segmentation engine of the Sauron repository
(src/audio.py, class AudioChunker), against its natural-language
specification.

The engine is a frame-by-frame state machine.  Frames are abstracted to
identifiers (the engine never inspects frame bytes; it only concatenates
them), and wall-clock time is modelled in integer milliseconds supplied
with each frame.  The byte-level frame reader (AudioChunker._frames) is
modelled separately over an explicit byte stream.
-/

namespace Sauron

/-- A PCM frame, abstracted to an identifier.  The engine treats frame
contents as opaque: it only stores frames and concatenates them on
emission, so identity and order are all that matter. -/
abbrev Frame := Nat

/-- The kind of an emitted segment, distinguished in the source by the
output filename: audio_ts.wav (final), audio_ts_stream.wav (streaming
chunk), audio_ts_long.wav (overflow split).  wakeProbe is the kind the
spec ascribes to wake-word probe emissions; the source has no code path
that produces it. -/
inductive SegKind where
  | finalSeg
  | streamChunk
  | overflowSplit
  | wakeProbe
deriving DecidableEq

/-- An emitted segment descriptor: its kind, the time of emission, and
the frames whose concatenation forms the written PCM payload. -/
structure Segment where
  kind : SegKind
  ts : Nat
  frames : List Frame
deriving DecidableEq

/-- Constructor-time configuration of AudioChunker (the fields the run
loop consults, plus enable_wake_word which it stores but never reads). -/
structure Config where
  sampleRate : Nat
  chunkSeconds : Nat
  enableWakeWord : Bool
  enableStreaming : Bool
deriving DecidableEq

/-- frame_ms = 30 in AudioChunker.__init__. -/
def frameMs : Nat := 30

/-- silence_threshold = 1.0 s in AudioChunker.run, in milliseconds. -/
def silenceThresholdMs : Nat := 1000

/-- streaming_chunk_seconds = 3 in AudioChunker.__init__, in milliseconds. -/
def streamingChunkMs : Nat := 3000

/-- frame_bytes = int(sample_rate * (frame_ms / 1000.0) * 2): bytes per
30 ms of 16-bit mono PCM.  The float expression evaluates exactly for
the supported sample rates (960 at 16000 Hz), so integer arithmetic is
faithful. -/
def frameBytes (c : Config) : Nat := c.sampleRate * (frameMs * 2) / 1000

/-- maxlen of the silence (pre-roll) deque:
int((sample_rate * 2 * chunk_seconds) / frame_bytes). -/
def silenceCap (c : Config) : Nat := c.sampleRate * 2 * c.chunkSeconds / frameBytes c

/-- The overflow cap measured in frames:
(sample_rate * 2 * 300) / frame_bytes, i.e. 300 s of audio
(10000 frames at 16000 Hz). -/
def overflowFrames (c : Config) : Nat := c.sampleRate * 2 * 300 / frameBytes c

/-- Appending to a deque with a maxlen: the new element goes to the
back and the oldest elements are dropped from the front so that at most
cap elements remain. -/
def pushRing (cap : Nat) (q : List Frame) (x : Frame) : List Frame :=
  let q2 := q ++ [x]
  q2.drop (q2.length - cap)

/-- The mutable state of AudioChunker.run between frames. -/
structure St where
  activeRecording : List Frame
  silenceBuffer : List Frame
  lastEmit : Nat
  lastSpeechTime : Nat
  lastStreamEmit : Nat
  triggered : Bool
  isRecordingSpeech : Bool
deriving DecidableEq

/-- State at entry to the frame loop: empty buffers, all clocks at the
loop start time, triggered = not enable_wake_word, not recording. -/
def initSt (cfg : Config) (t0 : Nat) : St :=
  { activeRecording := []
    silenceBuffer := []
    lastEmit := t0
    lastSpeechTime := t0
    lastStreamEmit := t0
    triggered := !cfg.enableWakeWord
    isRecordingSpeech := false }

/-- One input to the loop body: the frame, its VAD classification, and
the wall-clock time (ms) at which it is processed. -/
structure Inp where
  frame : Frame
  isSpeech : Bool
  now : Nat
deriving DecidableEq

/-- The speech / non-speech branch of the loop body (audio.py lines
95-106 and 118-120): on speech, seed the active recording from the
silence buffer when recording starts, append the frame, update
last_speech_time and clear the silence buffer; on non-speech, append
the frame to the bounded silence buffer. -/
def vadUpdate (cfg : Config) (σ : St) (f : Frame) (isSp : Bool) (now : Nat) : St :=
  if isSp then
    let σa : St :=
      if σ.isRecordingSpeech = false then
        { σ with activeRecording := σ.activeRecording ++ σ.silenceBuffer
                 isRecordingSpeech := true
                 lastStreamEmit := now }
      else σ
    { σa with activeRecording := σa.activeRecording ++ [f]
              lastSpeechTime := now
              silenceBuffer := [] }
  else
    { σ with silenceBuffer := pushRing (silenceCap cfg) σ.silenceBuffer f }

/-- Streaming emission (audio.py lines 108-117, nested in the speech
branch): if streaming is enabled and 3 s have passed since the last
streaming emission, write the accumulated recording as a streaming
chunk without clearing it and reset the streaming timer. -/
def streamEmit (cfg : Config) (isSp : Bool) (now : Nat) (σ : St) : St × List Segment :=
  if isSp = true ∧ cfg.enableStreaming = true ∧ streamingChunkMs ≤ now - σ.lastStreamEmit then
    ({ σ with lastStreamEmit := now },
      [{ kind := SegKind.streamChunk, ts := now, frames := σ.activeRecording }])
  else (σ, [])

/-- Finalization (audio.py lines 122-141): when recording, at least the
silence threshold has elapsed since the last speech and the active
recording is non-empty, append the silence buffer as trailing context,
emit as a final segment, clear both buffers and leave the recording
state. -/
def finalizeEmit (now : Nat) (σ : St) : St × List Segment :=
  if σ.isRecordingSpeech = true ∧ silenceThresholdMs ≤ now - σ.lastSpeechTime ∧
      0 < σ.activeRecording.length then
    ({ σ with activeRecording := []
              silenceBuffer := []
              isRecordingSpeech := false
              lastEmit := now },
      [{ kind := SegKind.finalSeg, ts := now,
         frames := σ.activeRecording ++ σ.silenceBuffer }])
  else (σ, [])

/-- Overflow safety valve (audio.py lines 143-153): when recording and
the active recording holds more than 300 s of audio, emit it as an
overflow split, clear it and reset the recording flag.  The source
compares len(active_recording) with the float
(sample_rate * 2 * 300) / frame_bytes; the comparison is stated here by
cross-multiplication, which agrees with it for the supported rates. -/
def overflowEmit (cfg : Config) (now : Nat) (σ : St) : St × List Segment :=
  if σ.isRecordingSpeech = true ∧
      cfg.sampleRate * 2 * 300 < σ.activeRecording.length * frameBytes cfg then
    ({ σ with activeRecording := []
              isRecordingSpeech := false
              lastEmit := now },
      [{ kind := SegKind.overflowSplit, ts := now, frames := σ.activeRecording }])
  else (σ, [])

/-- The loop body of AudioChunker.run for one frame, on the path where
the classifier and the writer succeed: the VAD branch, then the
streaming, finalization and overflow emission blocks in source order.
Returns the new state and the segments emitted during this frame. -/
def step (cfg : Config) (σ : St) (inp : Inp) : St × List Segment :=
  let σ1 := vadUpdate cfg σ inp.frame inp.isSpeech inp.now
  let r2 := streamEmit cfg inp.isSpeech inp.now σ1
  let r3 := finalizeEmit inp.now r2.1
  let r4 := overflowEmit cfg inp.now r3.1
  (r4.1, r2.2 ++ r3.2 ++ r4.2)

/-- Run the loop body over a list of inputs from a given state,
collecting emitted segments in order. -/
def runFrom (cfg : Config) (σ : St) (inputs : List Inp) : St × List Segment :=
  match inputs with
  | [] => (σ, [])
  | i :: rest =>
    let r := step cfg σ i
    let rr := runFrom cfg r.1 rest
    (rr.1, r.2 ++ rr.2)

/-- AudioChunker.run on a scripted frame/decision/time sequence:
initialize the state at time t0 and process every input. -/
def runChunker (cfg : Config) (t0 : Nat) (inputs : List Inp) : St × List Segment :=
  runFrom cfg (initSt cfg t0) inputs

/-!
Failure-path model.  The loop body calls two effectful operations that
can raise: self.vad.is_speech (no try/except around it) and
self._write_wav (called before the yield and before any buffer clears).
stepX models the same loop body with those failure channels explicit:
the classifier result is an Option (none = the call raises) and writes
are numbered, a write-failure oracle deciding which attempts raise.  A
raised exception propagates out of the generator with the state exactly
as mutated up to the raising statement, and processing stops.
-/

/-- Why a run of AudioChunker.run terminated early: the VAD call raised
on some frame, or a _write_wav call raised. -/
inductive RunErr where
  | classifierErr
  | writeErr
deriving DecidableEq

/-- One input to the failure-aware loop: the frame, the classifier
outcome for it (none = the classifier raises), and the time. -/
structure InpX where
  frame : Frame
  cls : Option Bool
  now : Nat
deriving DecidableEq

/-- Result of the failure-aware loop: the segments delivered to the
consumer (yielded before any failure), then either the state and write
counter on success, or the error with the state at the raise. -/
inductive XRes where
  | ok (out : List Segment) (σ : St) (cnt : Nat)
  | err (e : RunErr) (out : List Segment) (σ : St) (cnt : Nat)
deriving DecidableEq

/-- Streaming emission with an explicit writer: _write_wav runs before
the yield and before last_stream_emit is reset, so a write failure
leaves the state unchanged and delivers nothing. -/
def streamEmitX (cfg : Config) (wf : Nat → Bool) (isSp : Bool) (now : Nat)
    (σ : St) (cnt : Nat) : XRes :=
  if isSp = true ∧ cfg.enableStreaming = true ∧ streamingChunkMs ≤ now - σ.lastStreamEmit then
    if wf cnt then XRes.err RunErr.writeErr [] σ (cnt + 1)
    else XRes.ok [{ kind := SegKind.streamChunk, ts := now, frames := σ.activeRecording }]
      { σ with lastStreamEmit := now } (cnt + 1)
  else XRes.ok [] σ cnt

/-- Finalization with an explicit writer: the silence buffer is
appended to the active recording before _write_wav runs, so a write
failure leaves the active recording extended, both buffers uncleared
and the recording flag set. -/
def finalizeEmitX (wf : Nat → Bool) (now : Nat) (σ : St) (cnt : Nat) : XRes :=
  if σ.isRecordingSpeech = true ∧ silenceThresholdMs ≤ now - σ.lastSpeechTime ∧
      0 < σ.activeRecording.length then
    let σe : St := { σ with activeRecording := σ.activeRecording ++ σ.silenceBuffer }
    if wf cnt then XRes.err RunErr.writeErr [] σe (cnt + 1)
    else XRes.ok [{ kind := SegKind.finalSeg, ts := now, frames := σe.activeRecording }]
      { σe with activeRecording := []
                silenceBuffer := []
                isRecordingSpeech := false
                lastEmit := now } (cnt + 1)
  else XRes.ok [] σ cnt

/-- Overflow emission with an explicit writer: _write_wav runs before
the clears, so a write failure leaves the state unchanged. -/
def overflowEmitX (cfg : Config) (wf : Nat → Bool) (now : Nat) (σ : St) (cnt : Nat) : XRes :=
  if σ.isRecordingSpeech = true ∧
      cfg.sampleRate * 2 * 300 < σ.activeRecording.length * frameBytes cfg then
    if wf cnt then XRes.err RunErr.writeErr [] σ (cnt + 1)
    else XRes.ok [{ kind := SegKind.overflowSplit, ts := now, frames := σ.activeRecording }]
      { σ with activeRecording := []
               isRecordingSpeech := false
               lastEmit := now } (cnt + 1)
  else XRes.ok [] σ cnt

/-- The loop body with both failure channels.  The VAD call is the
first statement of the body and has no handler: a classifier error
aborts the iteration with the state untouched.  Otherwise the three
emission blocks run in source order, stopping at the first write
failure. -/
def stepX (cfg : Config) (wf : Nat → Bool) (σ : St) (cnt : Nat) (inp : InpX) : XRes :=
  match inp.cls with
  | none => XRes.err RunErr.classifierErr [] σ cnt
  | some isSp =>
    let σ1 := vadUpdate cfg σ inp.frame isSp inp.now
    match streamEmitX cfg wf isSp inp.now σ1 cnt with
    | XRes.err e out σ2 cnt2 => XRes.err e out σ2 cnt2
    | XRes.ok out2 σ2 cnt2 =>
      match finalizeEmitX wf inp.now σ2 cnt2 with
      | XRes.err e out σ3 cnt3 => XRes.err e (out2 ++ out) σ3 cnt3
      | XRes.ok out3 σ3 cnt3 =>
        match overflowEmitX cfg wf inp.now σ3 cnt3 with
        | XRes.err e out σ4 cnt4 => XRes.err e (out2 ++ out3 ++ out) σ4 cnt4
        | XRes.ok out4 σ4 cnt4 => XRes.ok (out2 ++ out3 ++ out4) σ4 cnt4

/-- Run the failure-aware loop over a list of inputs, stopping at the
first raised error; segments yielded before the failure stay
delivered. -/
def runXFrom (cfg : Config) (wf : Nat → Bool) (σ : St) (cnt : Nat)
    (inputs : List InpX) : XRes :=
  match inputs with
  | [] => XRes.ok [] σ cnt
  | i :: rest =>
    match stepX cfg wf σ cnt i with
    | XRes.err e out σ2 cnt2 => XRes.err e out σ2 cnt2
    | XRes.ok out σ2 cnt2 =>
      match runXFrom cfg wf σ2 cnt2 rest with
      | XRes.err e out2 σ3 cnt3 => XRes.err e (out ++ out2) σ3 cnt3
      | XRes.ok out2 σ3 cnt3 => XRes.ok (out ++ out2) σ3 cnt3

/-- AudioChunker.run with failure channels, from the initial state. -/
def runX (cfg : Config) (wf : Nat → Bool) (t0 : Nat) (inputs : List InpX) : XRes :=
  runXFrom cfg wf (initSt cfg t0) 0 inputs

/-!
Frame source model (AudioChunker._frames).  proc.stdout.read(n) on the
capture pipe blocks until n bytes are buffered or the stream ends, so
each read returns min(n, bytes remaining) bytes; the loop ends when a
read returns no bytes.  The whole byte stream produced by the capture
process before it closed is modelled as an explicit list of bytes.
-/

/-- frames yielded by AudioChunker._frames over a finite capture byte
stream: repeatedly read fB bytes (a shorter tail read is possible at
end of stream) and stop on an empty read.  The fB = 0 guard is
unreachable in the source (frame_bytes is 960 at 16000 Hz) and only
serves termination. -/
def framesOf (fB : Nat) (bs : List Nat) : List (List Nat) :=
  if fB = 0 ∨ bs = [] then []
  else bs.take fB :: framesOf fB (bs.drop fB)
termination_by bs.length
decreasing_by
  rename_i h
  simp only [not_or] at h
  simp only [List.length_drop]
  have hb : bs.length ≠ 0 := fun hn => h.2 (List.length_eq_zero.mp hn)
  omega

/-!
Scripted inputs used by the run-level theorems: a real-time 30 ms frame
grid where the k-th frame of the session carries identifier k and is
processed at k * 30 ms.
-/

/-- The k-th grid frame: identifier k, classified isSp, time 30k ms. -/
def gridInp (isSp : Bool) (k : Nat) : Inp :=
  { frame := k, isSpeech := isSp, now := frameMs * k }

/-- A scripted session: s non-speech frames, then n speech frames, then
m non-speech frames, on the 30 ms grid. -/
def phasedScript (s n m : Nat) : List Inp :=
  (List.range s).map (gridInp false) ++
    (List.range n).map (fun k => gridInp true (s + k)) ++
    (List.range m).map (fun k => gridInp false (s + n + k))

/-- The engine state after a speech run of n grid frames (session
frames s .. s+n-1) entered from a non-recording state σ: the recording
holds the pre-roll seed followed by the run's frames, the pre-roll is
empty, the speech clock is at the last frame, and the streaming clock is
at the last streaming emission (the trigger when streaming is off). -/
def speechPhaseSt (cfg : Config) (σ : St) (s n : Nat) : St :=
  { σ with
    activeRecording := σ.silenceBuffer ++ (List.range n).map (fun k => s + k)
    silenceBuffer := []
    isRecordingSpeech := true
    lastSpeechTime := frameMs * (s + (n - 1))
    lastStreamEmit :=
      if cfg.enableStreaming = true then
        frameMs * s + streamingChunkMs * ((n - 1) / 100)
      else frameMs * s }

/-- The streaming chunks a speech run of n grid frames starting at
session frame s produces when streaming is enabled and the recording
was seeded with q: one chunk per full 3 s (100 frames) of speech, each
carrying the whole accumulated recording at its emission time. -/
def expectedChunks (q : List Frame) (s n : Nat) : List Segment :=
  (List.range ((n - 1) / 100)).map (fun j =>
    { kind := SegKind.streamChunk
      ts := frameMs * (s + 100 * (j + 1))
      frames := q ++ (List.range (100 * (j + 1) + 1)).map (fun i => s + i) })

/-!
Basic lemmas about the run loop and the ring buffer.
-/

theorem runFrom_nil (cfg : Config) (σ : St) : runFrom cfg σ [] = (σ, []) := rfl

theorem runFrom_cons (cfg : Config) (σ : St) (i : Inp) (rest : List Inp) :
    runFrom cfg σ (i :: rest) =
      ((runFrom cfg (step cfg σ i).1 rest).1,
        (step cfg σ i).2 ++ (runFrom cfg (step cfg σ i).1 rest).2) := rfl

theorem runFrom_append (cfg : Config) (σ : St) (a b : List Inp) :
    runFrom cfg σ (a ++ b) =
      ((runFrom cfg (runFrom cfg σ a).1 b).1,
        (runFrom cfg σ a).2 ++ (runFrom cfg (runFrom cfg σ a).1 b).2) := by
  induction a generalizing σ with
  | nil => simp [runFrom_nil]
  | cons i rest ih => simp [runFrom_cons, ih, List.append_assoc]

theorem pushRing_length_le (cap : Nat) (q : List Frame) (x : Frame) :
    (pushRing cap q x).length ≤ cap := by
  simp only [pushRing, List.length_drop, List.length_append, List.length_cons,
    List.length_nil]
  omega

/-!
Characterizations of one loop iteration, by case on the classifier
decision and the engine state.
-/

theorem step_idle_nonspeech (cfg : Config) (σ : St) (i : Inp)
    (hrec : σ.isRecordingSpeech = false) (hsp : i.isSpeech = false) :
    step cfg σ i =
      ({ σ with silenceBuffer := pushRing (silenceCap cfg) σ.silenceBuffer i.frame }, []) := by
  simp [step, vadUpdate, streamEmit, finalizeEmit, overflowEmit, hrec, hsp]

theorem step_finalize_hit (cfg : Config) (σ : St) (i : Inp)
    (hrec : σ.isRecordingSpeech = true) (hsp : i.isSpeech = false)
    (hdur : silenceThresholdMs ≤ i.now - σ.lastSpeechTime)
    (hne : σ.activeRecording ≠ []) :
    step cfg σ i =
      ({ σ with activeRecording := []
                silenceBuffer := []
                isRecordingSpeech := false
                lastEmit := i.now },
        [{ kind := SegKind.finalSeg, ts := i.now,
           frames := σ.activeRecording ++ pushRing (silenceCap cfg) σ.silenceBuffer i.frame }]) := by
  have hlen : 0 < σ.activeRecording.length := List.length_pos.mpr hne
  simp [step, vadUpdate, streamEmit, finalizeEmit, overflowEmit, hrec, hsp, hdur, hlen]

theorem step_rec_nonspeech_short (cfg : Config) (σ : St) (i : Inp)
    (hrec : σ.isRecordingSpeech = true) (hsp : i.isSpeech = false)
    (hdur : i.now - σ.lastSpeechTime < silenceThresholdMs)
    (hov : ¬ cfg.sampleRate * 2 * 300 < σ.activeRecording.length * frameBytes cfg) :
    step cfg σ i =
      ({ σ with silenceBuffer := pushRing (silenceCap cfg) σ.silenceBuffer i.frame }, []) := by
  simp [step, vadUpdate, streamEmit, finalizeEmit, overflowEmit, hrec, hsp,
    Nat.not_le.mpr hdur, hov]

theorem step_trigger (cfg : Config) (σ : St) (i : Inp)
    (hrec : σ.isRecordingSpeech = false) (hsp : i.isSpeech = true)
    (hov : ¬ cfg.sampleRate * 2 * 300 <
      (σ.activeRecording.length + σ.silenceBuffer.length + 1) * frameBytes cfg) :
    step cfg σ i =
      ({ σ with activeRecording := σ.activeRecording ++ σ.silenceBuffer ++ [i.frame]
                silenceBuffer := []
                isRecordingSpeech := true
                lastSpeechTime := i.now
                lastStreamEmit := i.now }, []) := by
  simp [step, vadUpdate, streamEmit, finalizeEmit, overflowEmit, hrec, hsp, hov,
    Nat.sub_self, List.append_assoc, List.length_append, silenceThresholdMs,
    streamingChunkMs]
  rw [show σ.activeRecording.length + (σ.silenceBuffer.length + 1) =
    σ.activeRecording.length + σ.silenceBuffer.length + 1 from by omega]
  omega

theorem step_rec_speech_quiet (cfg : Config) (σ : St) (i : Inp)
    (hrec : σ.isRecordingSpeech = true) (hsp : i.isSpeech = true)
    (hstream : cfg.enableStreaming = false ∨ i.now - σ.lastStreamEmit < streamingChunkMs)
    (hov : ¬ cfg.sampleRate * 2 * 300 <
      (σ.activeRecording.length + 1) * frameBytes cfg) :
    step cfg σ i =
      ({ σ with activeRecording := σ.activeRecording ++ [i.frame]
                silenceBuffer := []
                lastSpeechTime := i.now }, []) := by
  rcases hstream with hs | hs
  · simp [step, vadUpdate, streamEmit, finalizeEmit, overflowEmit, hrec, hsp, hs, hov,
      Nat.sub_self, List.length_append, silenceThresholdMs]
  · simp [step, vadUpdate, streamEmit, finalizeEmit, overflowEmit, hrec, hsp,
      Nat.not_le.mpr hs, hov, Nat.sub_self, List.length_append, silenceThresholdMs]

theorem step_rec_speech_chunk (cfg : Config) (σ : St) (i : Inp)
    (hrec : σ.isRecordingSpeech = true) (hsp : i.isSpeech = true)
    (hst : cfg.enableStreaming = true)
    (hfire : streamingChunkMs ≤ i.now - σ.lastStreamEmit)
    (hov : ¬ cfg.sampleRate * 2 * 300 <
      (σ.activeRecording.length + 1) * frameBytes cfg) :
    step cfg σ i =
      ({ σ with activeRecording := σ.activeRecording ++ [i.frame]
                silenceBuffer := []
                lastSpeechTime := i.now
                lastStreamEmit := i.now },
        [{ kind := SegKind.streamChunk, ts := i.now,
           frames := σ.activeRecording ++ [i.frame] }]) := by
  simp [step, vadUpdate, streamEmit, finalizeEmit, overflowEmit, hrec, hsp, hst, hfire,
    hov, Nat.sub_self, List.length_append, silenceThresholdMs]

/-!
Claim C3: the pre-roll (silence) ring buffer.
-/

theorem step_silence_cases (cfg : Config) (σ : St) (i : Inp) :
    (step cfg σ i).1.silenceBuffer = [] ∨
      (step cfg σ i).1.silenceBuffer =
        pushRing (silenceCap cfg) σ.silenceBuffer i.frame := by
  simp only [step, vadUpdate, streamEmit, finalizeEmit, overflowEmit]
  split_ifs <;> simp

theorem runFrom_silence_le (cfg : Config) (σ : St) (inputs : List Inp)
    (h : σ.silenceBuffer.length ≤ silenceCap cfg) :
    (runFrom cfg σ inputs).1.silenceBuffer.length ≤ silenceCap cfg := by
  induction inputs generalizing σ with
  | nil => simpa [runFrom_nil]
  | cons i rest ih =>
    rw [runFrom_cons]
    apply ih
    rcases step_silence_cases cfg σ i with hc | hc
    · simp [hc]
    · rw [hc]; exact pushRing_length_le _ _ _

/-- C3: over every sequence of classifier decisions the PreRoll (silence)
buffer length never exceeds its configured capacity
int((sample_rate * 2 * chunk_seconds) / frame_bytes), and appending a
non-speech frame at capacity evicts the oldest buffered frame. -/
theorem preroll_ring_invariant :
    (∀ (cfg : Config) (t0 : Nat) (inputs : List Inp),
      (runChunker cfg t0 inputs).1.silenceBuffer.length ≤ silenceCap cfg) ∧
    (∀ (cfg : Config) (q : List Frame) (x : Frame),
      q.length = silenceCap cfg → q ≠ [] →
      pushRing (silenceCap cfg) q x = q.drop 1 ++ [x]) := by
  constructor
  · intro cfg t0 inputs
    exact runFrom_silence_le cfg (initSt cfg t0) inputs (by simp [initSt])
  · intro cfg q x hcap hne
    have h1 : 1 ≤ q.length := List.length_pos.mpr hne
    simp only [pushRing, List.length_append, List.length_cons, List.length_nil]
    rw [show q.length + (0 + 1) - silenceCap cfg = 1 by omega]
    exact List.drop_append_of_le_length h1

/-- C3 witness: a concrete run respects the bound, and a concrete
full ring (capacity 33 at chunk_seconds = 1) evicts its oldest entry. -/
theorem preroll_ring_invariant_witness :
    (runChunker ⟨16000, 1, false, true⟩ 0 (phasedScript 40 3 10)).1.silenceBuffer.length ≤
      silenceCap ⟨16000, 1, false, true⟩ ∧
    pushRing (silenceCap ⟨16000, 1, false, true⟩) (List.replicate 33 5) 7 =
      (List.replicate 33 5).drop 1 ++ [7] :=
  ⟨preroll_ring_invariant.1 ⟨16000, 1, false, true⟩ 0 (phasedScript 40 3 10),
   preroll_ring_invariant.2 ⟨16000, 1, false, true⟩ (List.replicate 33 5) 7
     (by decide) (by decide)⟩

/-!
Claim C10: enable_wake_word only initializes the dead triggered flag.
-/

theorem step_ew (c : Config) (b : Bool) (σ : St) (i : Inp) :
    step { c with enableWakeWord := b } σ i = step c σ i := rfl

theorem step_triggered_update (cfg : Config) (σ : St) (b : Bool) (i : Inp) :
    step cfg { σ with triggered := b } i =
      ({ (step cfg σ i).1 with triggered := b }, (step cfg σ i).2) := by
  simp only [step, vadUpdate, streamEmit, finalizeEmit, overflowEmit]
  split_ifs <;> rfl

theorem runFrom_triggered (cfg : Config) (σ : St) (b : Bool) (inputs : List Inp) :
    runFrom cfg { σ with triggered := b } inputs =
      ({ (runFrom cfg σ inputs).1 with triggered := b }, (runFrom cfg σ inputs).2) := by
  induction inputs generalizing σ with
  | nil => simp [runFrom_nil]
  | cons i rest ih => simp [runFrom_cons, step_triggered_update, ih]

theorem runFrom_ew (c : Config) (b : Bool) (σ : St) (inputs : List Inp) :
    runFrom { c with enableWakeWord := b } σ inputs = runFrom c σ inputs := by
  induction inputs generalizing σ with
  | nil => rfl
  | cons i rest ih => simp [runFrom_cons, step_ew, ih]

/-- C10: the enable_wake_word flag has no observable effect: over any
frame stream and decision sequence, runs constructed with the flag on
and off emit identical segment sequences, and their final states agree
except in the write-once never-read triggered field. -/
theorem wake_word_flag_no_effect (c : Config) (b₁ b₂ : Bool) (t0 : Nat)
    (inputs : List Inp) :
    (runChunker { c with enableWakeWord := b₁ } t0 inputs).2 =
      (runChunker { c with enableWakeWord := b₂ } t0 inputs).2 ∧
    (runChunker { c with enableWakeWord := b₁ } t0 inputs).1 =
      { (runChunker { c with enableWakeWord := b₂ } t0 inputs).1 with
        triggered := !b₁ } := by
  unfold runChunker
  have h1 : initSt { c with enableWakeWord := b₁ } t0 =
      { initSt c t0 with triggered := !b₁ } := rfl
  have h2 : initSt { c with enableWakeWord := b₂ } t0 =
      { initSt c t0 with triggered := !b₂ } := rfl
  rw [h1, h2]
  simp only [runFrom_ew, runFrom_triggered]
  exact ⟨trivial, trivial⟩

/-!
Claim C6: the loop has no wake-word probe emission path.
-/

theorem step_no_probe (cfg : Config) (σ : St) (i : Inp) :
    (step cfg σ i).2.countP (fun s => decide (s.kind = SegKind.wakeProbe)) = 0 := by
  simp only [step, streamEmit, finalizeEmit, overflowEmit]
  split_ifs <;> simp

theorem runFrom_no_probe (cfg : Config) (σ : St) (inputs : List Inp) :
    (runFrom cfg σ inputs).2.countP (fun s => decide (s.kind = SegKind.wakeProbe)) = 0 := by
  induction inputs generalizing σ with
  | nil => rfl
  | cons i rest ih => simp [runFrom_cons, List.countP_append, step_no_probe, ih]

/-- C6 (amended): the run loop emits no wake-word-probe segments at all;
the wake-word configuration only sets the triggered flag, which the loop
never reads, so there is no every-chunk_seconds probe path. -/
theorem no_wake_probe_ever (cfg : Config) (t0 : Nat) (inputs : List Inp) :
    (runChunker cfg t0 inputs).2.countP
      (fun s => decide (s.kind = SegKind.wakeProbe)) = 0 :=
  runFrom_no_probe cfg (initSt cfg t0) inputs

/-- C6 counterexample: with wake-word gating enabled, untriggered, and
chunk_seconds = 1, forty non-speech grid frames span 1.2 s — more than
one full chunk_seconds interval — yet the engine emits nothing at all,
contradicting the claimed per-interval wake-word-probe emission. -/
theorem wake_probe_missing_counterexample :
    (runChunker ⟨16000, 1, true, true⟩ 0 (phasedScript 40 0 0)).2 = [] := by decide

/-!
Claim C1: finalization on sustained silence, and its idempotence.
-/

theorem run_idle_silence (cfg : Config) (σ : St) (inputs : List Inp)
    (hrec : σ.isRecordingSpeech = false)
    (hall : ∀ i ∈ inputs, i.isSpeech = false) :
    runFrom cfg σ inputs =
      ({ σ with silenceBuffer :=
          (inputs.map Inp.frame).foldl (pushRing (silenceCap cfg)) σ.silenceBuffer },
        []) := by
  induction inputs generalizing σ with
  | nil => simp [runFrom_nil]
  | cons i rest ih =>
    have hi := hall i (List.mem_cons_self i rest)
    rw [runFrom_cons, step_idle_nonspeech cfg σ i hrec hi]
    rw [ih { σ with silenceBuffer := pushRing (silenceCap cfg) σ.silenceBuffer i.frame }
      hrec (fun j hj => hall j (List.mem_cons_of_mem i hj))]
    simp

/-- C1: when the engine is recording, a non-speech frame arriving with
at least the 1 s silence threshold elapsed since the last speech frame
and a non-empty Active Recording makes it append the current PreRoll
Buffer as trailing context, emit exactly one final segment, clear both
buffers and leave the recording state; any further all-silence input
then produces no second emission. -/
theorem finalize_once_then_silent (cfg : Config) (σ : St) (i : Inp) (rest : List Inp)
    (hrec : σ.isRecordingSpeech = true) (hsp : i.isSpeech = false)
    (hdur : silenceThresholdMs ≤ i.now - σ.lastSpeechTime)
    (hne : σ.activeRecording ≠ [])
    (hrest : ∀ j ∈ rest, j.isSpeech = false) :
    (step cfg σ i).2 =
      [{ kind := SegKind.finalSeg, ts := i.now,
         frames := σ.activeRecording ++ pushRing (silenceCap cfg) σ.silenceBuffer i.frame }] ∧
    (step cfg σ i).1.activeRecording = [] ∧
    (step cfg σ i).1.silenceBuffer = [] ∧
    (step cfg σ i).1.isRecordingSpeech = false ∧
    (runFrom cfg (step cfg σ i).1 rest).2 = [] := by
  rw [step_finalize_hit cfg σ i hrec hsp hdur hne]
  refine ⟨rfl, rfl, rfl, rfl, ?_⟩
  rw [run_idle_silence cfg _ rest rfl hrest]

/-- C1 witness: a concrete recording state hit by a 1.02 s-late silence
frame emits one final segment, clears, and stays silent on one more
silence frame. -/
theorem finalize_once_then_silent_witness :
    (step ⟨16000, 30, false, true⟩ ⟨[5], [], 0, 0, 0, true, true⟩ ⟨7, false, 1020⟩).2 =
      [{ kind := SegKind.finalSeg, ts := 1020,
         frames := [5] ++ pushRing (silenceCap ⟨16000, 30, false, true⟩) [] 7 }] ∧
    (step ⟨16000, 30, false, true⟩ ⟨[5], [], 0, 0, 0, true, true⟩
      ⟨7, false, 1020⟩).1.activeRecording = [] ∧
    (step ⟨16000, 30, false, true⟩ ⟨[5], [], 0, 0, 0, true, true⟩
      ⟨7, false, 1020⟩).1.silenceBuffer = [] ∧
    (step ⟨16000, 30, false, true⟩ ⟨[5], [], 0, 0, 0, true, true⟩
      ⟨7, false, 1020⟩).1.isRecordingSpeech = false ∧
    (runFrom ⟨16000, 30, false, true⟩
      (step ⟨16000, 30, false, true⟩ ⟨[5], [], 0, 0, 0, true, true⟩ ⟨7, false, 1020⟩).1
      [⟨8, false, 1050⟩]).2 = [] :=
  finalize_once_then_silent ⟨16000, 30, false, true⟩ ⟨[5], [], 0, 0, 0, true, true⟩
    ⟨7, false, 1020⟩ [⟨8, false, 1050⟩] rfl rfl (by decide) (by decide) (by decide)

/-!
Claims C7 and C8: failure semantics of the writer and the classifier.
-/

/-- On a run where the classifier always succeeds and no write fails,
the failure-aware loop agrees with the pure loop (checked on a session
exercising the trigger, a streaming chunk and a finalization). -/
theorem runX_agrees_when_no_failure :
    runX ⟨16000, 2, false, true⟩ (fun _ => false) 0
        [⟨0, some true, 0⟩, ⟨1, some true, 3000⟩, ⟨2, some false, 4020⟩] =
      XRes.ok
        (runChunker ⟨16000, 2, false, true⟩ 0
          [⟨0, true, 0⟩, ⟨1, true, 3000⟩, ⟨2, false, 4020⟩]).2
        (runChunker ⟨16000, 2, false, true⟩ 0
          [⟨0, true, 0⟩, ⟨1, true, 3000⟩, ⟨2, false, 4020⟩]).1 2 := by
  decide

/-- C7 (amended): a Segment Writer failure during a finalize emission
propagates to the caller as an error and no segment descriptor is
delivered for it, but the buffers are NOT cleared: the run terminates
with the Active Recording already extended by the trailing PreRoll
contents and the recording flag still set. -/
theorem write_failure_uncleared (cfg : Config) (wf : Nat → Bool) (σ : St) (cnt : Nat)
    (f : Frame) (now : Nat)
    (hrec : σ.isRecordingSpeech = true)
    (hdur : silenceThresholdMs ≤ now - σ.lastSpeechTime)
    (hne : σ.activeRecording ≠ [])
    (hwf : wf cnt = true) :
    stepX cfg wf σ cnt ⟨f, some false, now⟩ =
      XRes.err RunErr.writeErr []
        { σ with
          activeRecording :=
            σ.activeRecording ++ pushRing (silenceCap cfg) σ.silenceBuffer f
          silenceBuffer := pushRing (silenceCap cfg) σ.silenceBuffer f }
        (cnt + 1) ∧
    σ.activeRecording ++ pushRing (silenceCap cfg) σ.silenceBuffer f ≠ [] := by
  have hlen : 0 < σ.activeRecording.length := List.length_pos.mpr hne
  constructor
  · simp [stepX, vadUpdate, streamEmitX, finalizeEmitX, overflowEmitX, hrec, hdur,
      hlen, hwf]
  · simp [hne]

/-- C7 witness: the concrete write-failure state is reached. -/
theorem write_failure_uncleared_witness :
    stepX ⟨16000, 30, false, false⟩ (fun _ => true) ⟨[5], [], 0, 0, 0, true, true⟩ 0
        ⟨7, some false, 1020⟩ =
      XRes.err RunErr.writeErr []
        { (⟨[5], [], 0, 0, 0, true, true⟩ : St) with
          activeRecording :=
            [5] ++ pushRing (silenceCap ⟨16000, 30, false, false⟩) [] 7
          silenceBuffer := pushRing (silenceCap ⟨16000, 30, false, false⟩) [] 7 }
        (0 + 1) ∧
    [5] ++ pushRing (silenceCap ⟨16000, 30, false, false⟩) [] 7 ≠ [] :=
  write_failure_uncleared ⟨16000, 30, false, false⟩ (fun _ => true)
    ⟨[5], [], 0, 0, 0, true, true⟩ 0 7 1020 rfl (by decide) (by decide) rfl

/-- C7 counterexample: a concrete run in which the writer fails at the
finalize emission ends with the Active Recording still holding both
frames and the recording flag still true — the buffers are not cleared,
contradicting the claim. -/
theorem write_failure_counterexample :
    runX ⟨16000, 30, false, false⟩ (fun _ => true) 0
        [⟨0, some true, 0⟩, ⟨1, some false, 1020⟩] =
      XRes.err RunErr.writeErr [] ⟨[0, 1], [1], 0, 0, 0, true, true⟩ 1 := by decide

/-- C8 (amended): a classifier error on a frame is fatal to the run: the
loop body has no handler around the VAD call, so the error propagates
immediately, the state is left exactly as it was before the frame, no
segment is delivered for it and no later frame is processed. -/
theorem classifier_error_fatal (cfg : Config) (wf : Nat → Bool) (σ : St) (cnt : Nat)
    (inp : InpX) (rest : List InpX) (hc : inp.cls = none) :
    runXFrom cfg wf σ cnt (inp :: rest) = XRes.err RunErr.classifierErr [] σ cnt := by
  simp [runXFrom, stepX, hc]

/-- C8 witness: a concrete classifier failure aborts the run at once. -/
theorem classifier_error_fatal_witness :
    runXFrom ⟨16000, 30, false, true⟩ (fun _ => false)
        (initSt ⟨16000, 30, false, true⟩ 0) 0
        [⟨0, none, 0⟩, ⟨1, some true, 30⟩] =
      XRes.err RunErr.classifierErr [] (initSt ⟨16000, 30, false, true⟩ 0) 0 :=
  classifier_error_fatal ⟨16000, 30, false, true⟩ (fun _ => false)
    (initSt ⟨16000, 30, false, true⟩ 0) 0 ⟨0, none, 0⟩ [⟨1, some true, 30⟩] rfl

/-- C8 counterexample: at a concrete two-frame input whose first frame
makes the classifier raise, the run terminates as a classifier error
with the following speech frame never processed, contradicting the
claim that a classification failure is treated as non-speech and
processing continues. -/
theorem classifier_error_counterexample :
    runX ⟨16000, 30, false, true⟩ (fun _ => false) 0
        [⟨0, none, 0⟩, ⟨1, some true, 30⟩] =
      XRes.err RunErr.classifierErr [] (initSt ⟨16000, 30, false, true⟩ 0) 0 := by
  decide

/-!
Claims C2 and C5: trigger seeding, exact final-segment contents, and
streaming chunks, over scripted 30 ms grid sessions.
-/

theorem foldl_pushRing (cap : Nat) :
    ∀ (xs : List Frame) (q : List Frame), q.length ≤ cap →
      xs.foldl (pushRing cap) q = (q ++ xs).drop (q.length + xs.length - cap) := by
  intro xs
  induction xs with
  | nil =>
    intro q hq
    simp [Nat.sub_eq_zero_of_le hq]
  | cons x xs ih =>
    intro q hq
    rw [List.foldl_cons, ih (pushRing cap q x) (pushRing_length_le cap q x)]
    simp only [pushRing]
    rw [← List.drop_append_of_le_length (Nat.sub_le _ _)]
    rw [List.drop_drop]
    have hlists : (q ++ [x]) ++ xs = q ++ x :: xs := by simp
    rw [hlists]
    congr 1
    simp only [List.length_drop, List.length_append, List.length_cons,
      List.length_nil]
    omega

theorem run_rec_silence_quiet (cfg : Config) :
    ∀ (inputs : List Inp) (σ : St),
      σ.isRecordingSpeech = true →
      ¬ cfg.sampleRate * 2 * 300 < σ.activeRecording.length * frameBytes cfg →
      (∀ i ∈ inputs, i.isSpeech = false ∧
        i.now - σ.lastSpeechTime < silenceThresholdMs) →
      runFrom cfg σ inputs =
        ({ σ with silenceBuffer :=
            (inputs.map Inp.frame).foldl (pushRing (silenceCap cfg)) σ.silenceBuffer },
          []) := by
  intro inputs
  induction inputs with
  | nil => intro σ _ _ _; simp [runFrom_nil]
  | cons i rest ih =>
    intro σ hrec hov hall
    obtain ⟨hi1, hi2⟩ := hall i (List.mem_cons_self i rest)
    rw [runFrom_cons, step_rec_nonspeech_short cfg σ i hrec hi1 hi2 hov]
    rw [ih { σ with silenceBuffer := pushRing (silenceCap cfg) σ.silenceBuffer i.frame }
      hrec hov (fun j hj => hall j (List.mem_cons_of_mem i hj))]
    simp

theorem expectedChunks_stable (q : List Frame) (s n : Nat) (hn : 1 ≤ n)
    (h100 : ¬ n % 100 = 0) :
    expectedChunks q s (n + 1) = expectedChunks q s n := by
  simp only [expectedChunks]
  have : n + 1 - 1 = n := rfl
  rw [this]
  have : n / 100 = (n - 1) / 100 := by omega
  rw [this]

theorem expectedChunks_snoc (q : List Frame) (s n : Nat) (hn : 1 ≤ n)
    (h100 : n % 100 = 0) :
    expectedChunks q s (n + 1) =
      expectedChunks q s n ++
        [{ kind := SegKind.streamChunk, ts := frameMs * (s + n),
           frames := q ++ (List.range (n + 1)).map (fun i => s + i) }] := by
  simp only [expectedChunks]
  have h1 : n + 1 - 1 = n := rfl
  rw [h1]
  have h2 : n / 100 = (n - 1) / 100 + 1 := by omega
  rw [h2, List.range_succ, List.map_append]
  congr 1
  have h3 : 100 * ((n - 1) / 100 + 1) = n := by omega
  simp only [List.map_cons, List.map_nil, h3]

theorem run_speech_phase (cfg : Config) (h16 : cfg.sampleRate = 16000) :
    ∀ (n : Nat), 1 ≤ n →
    ∀ (s : Nat) (σ : St), σ.isRecordingSpeech = false →
      σ.activeRecording = [] →
      σ.silenceBuffer.length + n ≤ 10000 →
      runFrom cfg σ ((List.range n).map (fun k => gridInp true (s + k))) =
        (speechPhaseSt cfg σ s n,
          if cfg.enableStreaming = true then expectedChunks σ.silenceBuffer s n
          else []) := by
  have hfb : frameBytes cfg = 960 := by simp [frameBytes, frameMs, h16]
  intro n hn
  induction n, hn using Nat.le_induction with
  | base =>
    intro s σ hrec hact hbound
    rw [show (List.range 1).map (fun k => gridInp true (s + k)) =
      [gridInp true s] from by simp [List.range_succ]]
    rw [runFrom_cons, runFrom_nil]
    have hov : ¬ cfg.sampleRate * 2 * 300 <
        (σ.activeRecording.length + σ.silenceBuffer.length + 1) * frameBytes cfg := by
      rw [h16, hfb, hact]
      simp only [List.length_nil]
      omega
    rw [step_trigger cfg σ (gridInp true s) hrec rfl hov]
    simp [gridInp, hact, expectedChunks, speechPhaseSt, List.range_succ]
  | succ n hn ih =>
    intro s σ hrec hact hbound
    have hb2 : σ.silenceBuffer.length + n ≤ 10000 := by omega
    rw [List.range_succ, List.map_append, runFrom_append, ih s σ hrec hact hb2]
    simp only [List.map_cons, List.map_nil]
    have hov : ¬ cfg.sampleRate * 2 * 300 <
        ((speechPhaseSt cfg σ s n).activeRecording.length + 1) * frameBytes cfg := by
      rw [h16, hfb]
      simp only [speechPhaseSt, List.length_append, List.length_map,
        List.length_range]
      omega
    have hrecB : (speechPhaseSt cfg σ s n).isRecordingSpeech = true := rfl
    rcases Bool.eq_false_or_eq_true cfg.enableStreaming with hstream | hstream
    · by_cases hn100 : n % 100 = 0
      · have hfire : streamingChunkMs ≤
            (gridInp true (s + n)).now - (speechPhaseSt cfg σ s n).lastStreamEmit := by
          simp [speechPhaseSt, gridInp, hstream, frameMs, streamingChunkMs]
          omega
        rw [runFrom_cons,
          step_rec_speech_chunk cfg (speechPhaseSt cfg σ s n) (gridInp true (s + n))
            hrecB rfl hstream hfire hov,
          runFrom_nil]
        rw [hstream, expectedChunks_snoc σ.silenceBuffer s n hn hn100]
        simp only [if_true, List.append_nil]
        rw [Prod.mk.injEq]
        constructor
        · simp [speechPhaseSt, gridInp, St.mk.injEq, List.range_succ, frameMs,
            streamingChunkMs, hstream]
          omega
        · simp [speechPhaseSt, gridInp, List.range_succ]
      · have hlt : (gridInp true (s + n)).now -
            (speechPhaseSt cfg σ s n).lastStreamEmit < streamingChunkMs := by
          simp [speechPhaseSt, gridInp, hstream, frameMs, streamingChunkMs]
          omega
        rw [runFrom_cons,
          step_rec_speech_quiet cfg (speechPhaseSt cfg σ s n) (gridInp true (s + n))
            hrecB rfl (Or.inr hlt) hov,
          runFrom_nil]
        rw [hstream, expectedChunks_stable σ.silenceBuffer s n hn hn100]
        simp only [if_true, List.append_nil]
        rw [Prod.mk.injEq]
        constructor
        · simp [speechPhaseSt, gridInp, St.mk.injEq, List.range_succ, frameMs,
            streamingChunkMs, hstream]
          omega
        · rfl
    · rw [runFrom_cons,
        step_rec_speech_quiet cfg (speechPhaseSt cfg σ s n) (gridInp true (s + n))
          hrecB rfl (Or.inl hstream) hov,
        runFrom_nil]
      rw [hstream]
      simp only [Bool.false_eq_true, if_false, List.append_nil]
      rw [Prod.mk.injEq]
      constructor
      · simp [speechPhaseSt, gridInp, St.mk.injEq, List.range_succ, frameMs,
          streamingChunkMs, hstream]
      · rfl

theorem map_gridInp_frame (b : Bool) (g : Nat → Nat) (xs : List Nat) :
    ((xs.map (fun k => gridInp b (g k))).map Inp.frame) = xs.map g := by
  simp [gridInp, List.map_map, Function.comp]

theorem run_idle_silence_grid (cfg : Config) (s : Nat) :
    runFrom cfg (initSt cfg 0) ((List.range s).map (gridInp false)) =
      ({ initSt cfg 0 with
          silenceBuffer := (List.range s).drop (s - silenceCap cfg) }, []) := by
  rw [run_idle_silence cfg (initSt cfg 0) _ rfl
    (fun i hi => by obtain ⟨k, _, rfl⟩ := List.mem_map.mp hi; rfl)]
  have hmap : ((List.range s).map (gridInp false)).map Inp.frame = List.range s := by
    simpa using map_gridInp_frame false (fun k => k) (List.range s)
  rw [hmap]
  simp only [initSt]
  rw [foldl_pushRing (silenceCap cfg) (List.range s) [] (by simp)]
  simp

/-- C2: over every scripted grid session of s leading non-speech frames,
n speech frames and 34 trailing non-speech frames (streaming disabled,
no overflow, trailing window within the pre-roll capacity), the engine
emits exactly one final segment whose frames are the pre-roll at the
trigger (the last min(s, capacity) leading frames, oldest first, before
the triggering frame), then the n speech frames appended during
recording, then the whole 34-frame trailing pre-roll; its frame count is
min(s, capacity) + n + 34, and the engine ends non-recording with both
buffers empty. -/
theorem final_segment_content (cfg : Config) (s n : Nat)
    (h16 : cfg.sampleRate = 16000) (hstr : cfg.enableStreaming = false)
    (hn : 1 ≤ n) (hcap34 : 34 ≤ silenceCap cfg)
    (hbound : min s (silenceCap cfg) + n ≤ 10000) :
    runChunker cfg 0 (phasedScript s n 34) =
      ({ activeRecording := []
         silenceBuffer := []
         lastEmit := frameMs * (s + n + 33)
         lastSpeechTime := frameMs * (s + (n - 1))
         lastStreamEmit := frameMs * s
         triggered := !cfg.enableWakeWord
         isRecordingSpeech := false },
       [{ kind := SegKind.finalSeg, ts := frameMs * (s + n + 33),
          frames :=
            (List.range s).drop (s - silenceCap cfg) ++
              (List.range n).map (fun k => s + k) ++
              (List.range 34).map (fun k => s + n + k) }]) ∧
    (runChunker cfg 0 (phasedScript s n 34)).2.map (fun sg => sg.frames.length) =
      [min s (silenceCap cfg) + n + 34] := by
  have hfb : frameBytes cfg = 960 := by simp [frameBytes, frameMs, h16]
  have hQlen : ((List.range s).drop (s - silenceCap cfg)).length =
      min s (silenceCap cfg) := by
    simp only [List.length_drop, List.length_range]
    omega
  have hB := run_speech_phase cfg h16 n hn s
    { initSt cfg 0 with silenceBuffer := (List.range s).drop (s - silenceCap cfg) }
    rfl rfl (by
      show ((List.range s).drop (s - silenceCap cfg)).length + n ≤ 10000
      rw [hQlen]
      omega)
  rw [hstr] at hB
  simp only [Bool.false_eq_true, if_false] at hB
  set σB := speechPhaseSt cfg
    { initSt cfg 0 with silenceBuffer := (List.range s).drop (s - silenceCap cfg) }
    s n with hσB
  have hBact : σB.activeRecording =
      (List.range s).drop (s - silenceCap cfg) ++
        (List.range n).map (fun k => s + k) := rfl
  have hBlen : σB.activeRecording.length = min s (silenceCap cfg) + n := by
    rw [hBact]
    simp only [List.length_append, List.length_map, List.length_range, hQlen]
  have hovB : ¬ cfg.sampleRate * 2 * 300 <
      σB.activeRecording.length * frameBytes cfg := by
    rw [h16, hfb, hBlen]
    omega
  have hC := run_rec_silence_quiet cfg
    ((List.range 33).map (fun k => gridInp false (s + n + k))) σB rfl hovB
    (fun i hi => by
      obtain ⟨k, hk, rfl⟩ := List.mem_map.mp hi
      have hk32 : k < 33 := List.mem_range.mp hk
      refine ⟨rfl, ?_⟩
      show frameMs * (s + n + k) - σB.lastSpeechTime < silenceThresholdMs
      have : σB.lastSpeechTime = frameMs * (s + (n - 1)) := rfl
      rw [this]
      simp only [frameMs, silenceThresholdMs]
      omega)
  have hCring : (((List.range 33).map (fun k => gridInp false (s + n + k))).map
        Inp.frame).foldl (pushRing (silenceCap cfg)) σB.silenceBuffer =
      (List.range 33).map (fun k => s + n + k) := by
    rw [map_gridInp_frame]
    have hsil : σB.silenceBuffer = [] := rfl
    rw [hsil, foldl_pushRing (silenceCap cfg) _ [] (by simp)]
    simp only [List.nil_append, List.length_nil, List.length_map, List.length_range]
    rw [Nat.sub_eq_zero_of_le (by omega), List.drop_zero]
  rw [hCring] at hC
  have hpush : pushRing (silenceCap cfg)
      ((List.range 33).map (fun k => s + n + k)) (s + n + 33) =
      (List.range 34).map (fun k => s + n + k) := by
    simp only [pushRing, List.length_append, List.length_map, List.length_range,
      List.length_cons, List.length_nil]
    rw [Nat.sub_eq_zero_of_le (by omega), List.drop_zero]
    conv_rhs => rw [show (34 : Nat) = 33 + 1 from rfl, List.range_succ]
    simp
  have hD : runFrom cfg
      { σB with silenceBuffer := (List.range 33).map (fun k => s + n + k) }
      [gridInp false (s + n + 33)] =
      ({ σB with activeRecording := []
                 silenceBuffer := []
                 isRecordingSpeech := false
                 lastEmit := frameMs * (s + n + 33) },
        [{ kind := SegKind.finalSeg, ts := frameMs * (s + n + 33),
           frames := σB.activeRecording ++ (List.range 34).map (fun k => s + n + k) }]) := by
    rw [runFrom_cons,
      step_finalize_hit cfg _ (gridInp false (s + n + 33)) rfl rfl
        (by
          show silenceThresholdMs ≤ frameMs * (s + n + 33) - σB.lastSpeechTime
          have : σB.lastSpeechTime = frameMs * (s + (n - 1)) := rfl
          rw [this]
          simp only [frameMs, silenceThresholdMs]
          omega)
        (by
          show σB.activeRecording ≠ []
          apply List.ne_nil_of_length_pos
          rw [hBlen]
          omega),
      runFrom_nil]
    show ((_ : St × List Segment).1, _) = _
    simp only [hpush, gridInp, List.append_nil]
  have hsplit : (List.range 34).map (fun k => gridInp false (s + n + k)) =
      (List.range 33).map (fun k => gridInp false (s + n + k)) ++
        [gridInp false (s + n + 33)] := by
    rw [show (34 : Nat) = 33 + 1 from rfl, List.range_succ, List.map_append]
    rfl
  have hmain : runChunker cfg 0 (phasedScript s n 34) =
      ({ activeRecording := []
         silenceBuffer := []
         lastEmit := frameMs * (s + n + 33)
         lastSpeechTime := frameMs * (s + (n - 1))
         lastStreamEmit := frameMs * s
         triggered := !cfg.enableWakeWord
         isRecordingSpeech := false },
       [{ kind := SegKind.finalSeg, ts := frameMs * (s + n + 33),
          frames :=
            (List.range s).drop (s - silenceCap cfg) ++
              (List.range n).map (fun k => s + k) ++
              (List.range 34).map (fun k => s + n + k) }]) := by
    simp only [runChunker, phasedScript, hsplit, runFrom_append,
      run_idle_silence_grid, hB, hC, hD]
    rw [Prod.mk.injEq]
    constructor
    · show ({ σB with activeRecording := []
                      silenceBuffer := []
                      isRecordingSpeech := false
                      lastEmit := frameMs * (s + n + 33) } : St) = _
      rw [hσB]
      simp only [speechPhaseSt, initSt, hstr, Bool.false_eq_true, if_false,
        St.mk.injEq]
    · simp only [List.nil_append, List.append_nil]
      rw [hBact, List.append_assoc]
  refine ⟨hmain, ?_⟩
  rw [hmain]
  simp only [List.map_cons, List.map_nil, List.length_append, List.length_map,
    List.length_range, hQlen]

/-- C5: with streaming enabled, a scripted grid session holding a speech
run of n ≥ 201 frames (longer than twice streaming_chunk_seconds at
30 ms per frame) followed by 34 trailing silence frames emits exactly
the expected streaming chunks — one per full 3 s of speech, each
carrying the whole accumulated recording, which is not cleared —
followed by the final segment; at least two chunks precede the final,
and a streaming emission changes nothing in the state except the
streaming-emit clock. -/
theorem streaming_chunks_emitted (cfg : Config) (n : Nat)
    (h16 : cfg.sampleRate = 16000) (hstr : cfg.enableStreaming = true)
    (hn : 201 ≤ n) (hcap34 : 34 ≤ silenceCap cfg) (hbound : n ≤ 10000) :
    runChunker cfg 0 (phasedScript 0 n 34) =
      ({ activeRecording := []
         silenceBuffer := []
         lastEmit := frameMs * (n + 33)
         lastSpeechTime := frameMs * (n - 1)
         lastStreamEmit := streamingChunkMs * ((n - 1) / 100)
         triggered := !cfg.enableWakeWord
         isRecordingSpeech := false },
       expectedChunks [] 0 n ++
         [{ kind := SegKind.finalSeg, ts := frameMs * (n + 33),
            frames := (List.range n).map (fun k => 0 + k) ++
              (List.range 34).map (fun k => 0 + n + k) }]) ∧
    2 ≤ (expectedChunks [] 0 n).length ∧
    (∀ (c2 : Config) (isSp : Bool) (now : Nat) (σ : St),
      (streamEmit c2 isSp now σ).1.activeRecording = σ.activeRecording ∧
      (streamEmit c2 isSp now σ).1.silenceBuffer = σ.silenceBuffer ∧
      (streamEmit c2 isSp now σ).1.isRecordingSpeech = σ.isRecordingSpeech ∧
      (streamEmit c2 isSp now σ).1.lastSpeechTime = σ.lastSpeechTime ∧
      (streamEmit c2 isSp now σ).1.lastEmit = σ.lastEmit) := by
  have hfb : frameBytes cfg = 960 := by simp [frameBytes, frameMs, h16]
  have hn1 : 1 ≤ n := by omega
  have hB := run_speech_phase cfg h16 n hn1 0 (initSt cfg 0) rfl rfl
    (by show ([] : List Frame).length + n ≤ 10000; simp only [List.length_nil]; omega)
  rw [hstr] at hB
  simp only [if_true] at hB
  set σB := speechPhaseSt cfg (initSt cfg 0) 0 n with hσB
  have hBact : σB.activeRecording = (List.range n).map (fun k => 0 + k) := rfl
  have hBlen : σB.activeRecording.length = n := by
    rw [hBact]
    simp only [List.length_map, List.length_range]
  have hovB : ¬ cfg.sampleRate * 2 * 300 <
      σB.activeRecording.length * frameBytes cfg := by
    rw [h16, hfb, hBlen]
    omega
  have hC := run_rec_silence_quiet cfg
    ((List.range 33).map (fun k => gridInp false (0 + n + k))) σB rfl hovB
    (fun i hi => by
      obtain ⟨k, hk, rfl⟩ := List.mem_map.mp hi
      have hk32 : k < 33 := List.mem_range.mp hk
      refine ⟨rfl, ?_⟩
      show frameMs * (0 + n + k) - σB.lastSpeechTime < silenceThresholdMs
      have hl : σB.lastSpeechTime = frameMs * (0 + (n - 1)) := rfl
      rw [hl]
      simp only [frameMs, silenceThresholdMs]
      omega)
  have hCring : (((List.range 33).map (fun k => gridInp false (0 + n + k))).map
        Inp.frame).foldl (pushRing (silenceCap cfg)) σB.silenceBuffer =
      (List.range 33).map (fun k => 0 + n + k) := by
    rw [map_gridInp_frame]
    have hsil : σB.silenceBuffer = [] := rfl
    rw [hsil, foldl_pushRing (silenceCap cfg) _ [] (by simp)]
    simp only [List.nil_append, List.length_nil, List.length_map, List.length_range]
    rw [Nat.sub_eq_zero_of_le (by omega), List.drop_zero]
  rw [hCring] at hC
  have hpush : pushRing (silenceCap cfg)
      ((List.range 33).map (fun k => 0 + n + k)) (0 + n + 33) =
      (List.range 34).map (fun k => 0 + n + k) := by
    simp only [pushRing, List.length_append, List.length_map, List.length_range,
      List.length_cons, List.length_nil]
    rw [Nat.sub_eq_zero_of_le (by omega), List.drop_zero]
    conv_rhs => rw [show (34 : Nat) = 33 + 1 from rfl, List.range_succ]
    simp
  have hD : runFrom cfg
      { σB with silenceBuffer := (List.range 33).map (fun k => 0 + n + k) }
      [gridInp false (0 + n + 33)] =
      ({ σB with activeRecording := []
                 silenceBuffer := []
                 isRecordingSpeech := false
                 lastEmit := frameMs * (0 + n + 33) },
        [{ kind := SegKind.finalSeg, ts := frameMs * (0 + n + 33),
           frames := σB.activeRecording ++
             (List.range 34).map (fun k => 0 + n + k) }]) := by
    rw [runFrom_cons,
      step_finalize_hit cfg _ (gridInp false (0 + n + 33)) rfl rfl
        (by
          show silenceThresholdMs ≤ frameMs * (0 + n + 33) - σB.lastSpeechTime
          have hl : σB.lastSpeechTime = frameMs * (0 + (n - 1)) := rfl
          rw [hl]
          simp only [frameMs, silenceThresholdMs]
          omega)
        (by
          show σB.activeRecording ≠ []
          apply List.ne_nil_of_length_pos
          rw [hBlen]
          omega),
      runFrom_nil]
    show ((_ : St × List Segment).1, _) = _
    simp only [hpush, gridInp, List.append_nil]
  have hsplit : (List.range 34).map (fun k => gridInp false (0 + n + k)) =
      (List.range 33).map (fun k => gridInp false (0 + n + k)) ++
        [gridInp false (0 + n + 33)] := by
    rw [show (34 : Nat) = 33 + 1 from rfl, List.range_succ, List.map_append]
    rfl
  refine ⟨?_, ?_, ?_⟩
  · simp only [runChunker, phasedScript, List.range_zero, List.map_nil,
      List.nil_append, hsplit, runFrom_append, hB, hC, hD]
    rw [Prod.mk.injEq]
    refine ⟨?_, ?_⟩
    · rw [hσB]
      simp [speechPhaseSt, initSt, hstr]
    · rw [hBact]
      simp [initSt]
  · simp only [expectedChunks, List.length_map, List.length_range]
    omega
  · intro c2 isSp now σ
    simp only [streamEmit]
    split_ifs <;> exact ⟨rfl, rfl, rfl, rfl, rfl⟩

/-- C2 witness: the session with 5 leading silence frames, 40 speech
frames and 34 trailing silence frames at chunk_seconds = 2. -/
theorem final_segment_content_witness :
    runChunker ⟨16000, 2, false, false⟩ 0 (phasedScript 5 40 34) =
      ({ activeRecording := []
         silenceBuffer := []
         lastEmit := frameMs * (5 + 40 + 33)
         lastSpeechTime := frameMs * (5 + (40 - 1))
         lastStreamEmit := frameMs * 5
         triggered := !(⟨16000, 2, false, false⟩ : Config).enableWakeWord
         isRecordingSpeech := false },
       [{ kind := SegKind.finalSeg, ts := frameMs * (5 + 40 + 33),
          frames :=
            (List.range 5).drop (5 - silenceCap ⟨16000, 2, false, false⟩) ++
              (List.range 40).map (fun k => 5 + k) ++
              (List.range 34).map (fun k => 5 + 40 + k) }]) ∧
    (runChunker ⟨16000, 2, false, false⟩ 0 (phasedScript 5 40 34)).2.map
        (fun sg => sg.frames.length) =
      [min 5 (silenceCap ⟨16000, 2, false, false⟩) + 40 + 34] :=
  final_segment_content ⟨16000, 2, false, false⟩ 5 40 rfl rfl (by decide)
    (by decide) (by decide)

/-- C5 witness: a 201-frame speech run (6.03 s) with trailing silence at
chunk_seconds = 2 produces its streaming chunks — at least two — before
the final segment. -/
theorem streaming_chunks_emitted_witness :
    runChunker ⟨16000, 2, false, true⟩ 0 (phasedScript 0 201 34) =
      ({ activeRecording := []
         silenceBuffer := []
         lastEmit := frameMs * (201 + 33)
         lastSpeechTime := frameMs * (201 - 1)
         lastStreamEmit := streamingChunkMs * ((201 - 1) / 100)
         triggered := !(⟨16000, 2, false, true⟩ : Config).enableWakeWord
         isRecordingSpeech := false },
       expectedChunks [] 0 201 ++
         [{ kind := SegKind.finalSeg, ts := frameMs * (201 + 33),
            frames := (List.range 201).map (fun k => 0 + k) ++
              (List.range 34).map (fun k => 0 + 201 + k) }]) ∧
    2 ≤ (expectedChunks [] 0 201).length :=
  ⟨(streaming_chunks_emitted ⟨16000, 2, false, true⟩ 201 rfl rfl (by decide)
      (by decide) (by decide)).1,
   (streaming_chunks_emitted ⟨16000, 2, false, true⟩ 201 rfl rfl (by decide)
      (by decide) (by decide)).2.1⟩

/-!
Claim C9: the frame source.
-/

theorem framesOf_nil (fB : Nat) : framesOf fB [] = [] := by
  unfold framesOf
  simp

theorem framesOf_cons (fB : Nat) (bs : List Nat) (h0 : fB ≠ 0) (hbs : bs ≠ []) :
    framesOf fB bs = bs.take fB :: framesOf fB (bs.drop fB) := by
  conv_lhs => rw [framesOf]
  rw [if_neg (by simp [h0, hbs])]

theorem framesOf_spec_aux (fB : Nat) (hfB : 0 < fB) :
    ∀ (n : Nat) (bs : List Nat), bs.length ≤ n →
      (framesOf fB bs).join = bs ∧
      (∀ l ∈ (framesOf fB bs).dropLast, l.length = fB) ∧
      (∀ l ∈ framesOf fB bs, 0 < l.length ∧ l.length ≤ fB) := by
  intro n
  induction n with
  | zero =>
    intro bs hb
    have hbs : bs = [] := List.length_eq_zero.mp (Nat.le_zero.mp hb)
    subst hbs
    simp [framesOf_nil]
  | succ n ih =>
    intro bs hb
    by_cases hbs : bs = []
    · subst hbs; simp [framesOf_nil]
    · have hpos : 0 < bs.length := List.length_pos.mpr hbs
      rw [framesOf_cons fB bs (by omega) hbs]
      obtain ⟨ihj, ihd, ihm⟩ := ih (bs.drop fB) (by
        simp only [List.length_drop]; omega)
      refine ⟨by simp [ihj], ?_, ?_⟩
      · by_cases hrest : framesOf fB (bs.drop fB) = []
        · simp [hrest]
        · obtain ⟨c, t, hct⟩ := List.exists_cons_of_ne_nil hrest
          rw [hct, List.dropLast_cons₂]
          intro l hl
          rcases List.mem_cons.mp hl with hl | hl
          · subst hl
            have hlen : fB < bs.length := by
              by_contra hcon
              push_neg at hcon
              rw [List.drop_eq_nil_of_le hcon, framesOf_nil] at hrest
              exact hrest rfl
            simp only [List.length_take]
            omega
          · rw [← hct] at hl
            exact ihd l hl
      · intro l hl
        rcases List.mem_cons.mp hl with hl | hl
        · subst hl
          simp only [List.length_take]
          omega
        · exact ihm l hl

/-- C9 (amended): over any finite capture byte stream, every frame
yielded by _frames has exactly frame_bytes = sample_rate * 30/1000 * 2
bytes (960 at 16000 Hz) except possibly the last, which is non-empty
but may be shorter when the capture handle closes mid-frame; no bytes
are lost, and end-of-stream is signalled exactly when the read returns
no bytes. -/
theorem frames_fixed_size_except_last (fB : Nat) (bs : List Nat) (hfB : 0 < fB) :
    (framesOf fB bs).join = bs ∧
    (∀ l ∈ (framesOf fB bs).dropLast, l.length = fB) ∧
    (∀ l ∈ framesOf fB bs, 0 < l.length ∧ l.length ≤ fB) ∧
    frameBytes ⟨16000, 30, false, true⟩ = 960 :=
  ⟨(framesOf_spec_aux fB hfB bs.length bs le_rfl).1,
   (framesOf_spec_aux fB hfB bs.length bs le_rfl).2.1,
   (framesOf_spec_aux fB hfB bs.length bs le_rfl).2.2,
   by decide⟩

/-- C9 witness: the general frame-shape statement applied at a concrete
stream of 5 bytes with 3-byte frames. -/
theorem frames_fixed_size_except_last_witness :
    (framesOf 3 [1, 2, 3, 4, 5]).join = [1, 2, 3, 4, 5] ∧
    (∀ l ∈ (framesOf 3 [1, 2, 3, 4, 5]).dropLast, l.length = 3) ∧
    (∀ l ∈ framesOf 3 [1, 2, 3, 4, 5], 0 < l.length ∧ l.length ≤ 3) ∧
    frameBytes ⟨16000, 30, false, true⟩ = 960 :=
  frames_fixed_size_except_last 3 [1, 2, 3, 4, 5] (by decide)

/-!
Stage-level fire and skip equations, used to walk the loop body one
emission block at a time.
-/

theorem vadUpdate_rec_speech (cfg : Config) (σ : St) (f : Frame) (now : Nat)
    (hrec : σ.isRecordingSpeech = true) :
    vadUpdate cfg σ f true now =
      { σ with activeRecording := σ.activeRecording ++ [f]
               lastSpeechTime := now
               silenceBuffer := [] } := by
  simp [vadUpdate, hrec]

theorem streamEmit_fire (cfg : Config) (isSp : Bool) (now : Nat) (σ : St)
    (h : isSp = true ∧ cfg.enableStreaming = true ∧
      streamingChunkMs ≤ now - σ.lastStreamEmit) :
    streamEmit cfg isSp now σ =
      ({ σ with lastStreamEmit := now },
        [{ kind := SegKind.streamChunk, ts := now, frames := σ.activeRecording }]) := by
  simp only [streamEmit]
  rw [if_pos h]

theorem streamEmit_skip (cfg : Config) (isSp : Bool) (now : Nat) (σ : St)
    (h : ¬ (isSp = true ∧ cfg.enableStreaming = true ∧
      streamingChunkMs ≤ now - σ.lastStreamEmit)) :
    streamEmit cfg isSp now σ = (σ, []) := by
  simp only [streamEmit]
  rw [if_neg h]

theorem finalizeEmit_skip (now : Nat) (σ : St)
    (h : ¬ (σ.isRecordingSpeech = true ∧
      silenceThresholdMs ≤ now - σ.lastSpeechTime ∧
      0 < σ.activeRecording.length)) :
    finalizeEmit now σ = (σ, []) := by
  simp only [finalizeEmit]
  rw [if_neg h]

theorem overflowEmit_fire (cfg : Config) (now : Nat) (σ : St)
    (h : σ.isRecordingSpeech = true ∧
      cfg.sampleRate * 2 * 300 < σ.activeRecording.length * frameBytes cfg) :
    overflowEmit cfg now σ =
      ({ σ with activeRecording := []
                isRecordingSpeech := false
                lastEmit := now },
        [{ kind := SegKind.overflowSplit, ts := now, frames := σ.activeRecording }]) := by
  simp only [overflowEmit]
  rw [if_pos h]

theorem overflowEmit_skip (cfg : Config) (now : Nat) (σ : St)
    (h : ¬ (σ.isRecordingSpeech = true ∧
      cfg.sampleRate * 2 * 300 < σ.activeRecording.length * frameBytes cfg)) :
    overflowEmit cfg now σ = (σ, []) := by
  simp only [overflowEmit]
  rw [if_neg h]

/-!
Claim C4: the overflow safety valve.  At sample rate 16000 the overflow
cap is 10000 frames (300 s), and the loop clears the recording as soon
as its length reaches 10001.
-/

theorem step_rec_speech_props (cfg : Config) (σ : St) (i : Inp)
    (hrec : σ.isRecordingSpeech = true) (hsp : i.isSpeech = true)
    (hov : ¬ cfg.sampleRate * 2 * 300 <
      (σ.activeRecording.length + 1) * frameBytes cfg) :
    (step cfg σ i).1.activeRecording.length = σ.activeRecording.length + 1 ∧
    (step cfg σ i).1.silenceBuffer = [] ∧
    (step cfg σ i).1.isRecordingSpeech = true ∧
    (step cfg σ i).2.countP (fun s => decide (s.kind = SegKind.overflowSplit)) = 0 ∧
    (step cfg σ i).2.countP (fun s => decide (s.kind = SegKind.finalSeg)) = 0 := by
  by_cases hst : cfg.enableStreaming = true ∧ streamingChunkMs ≤ i.now - σ.lastStreamEmit
  · rw [step_rec_speech_chunk cfg σ i hrec hsp hst.1 hst.2 hov]
    simp [hrec]
  · rcases Bool.eq_false_or_eq_true cfg.enableStreaming with hb | hb
    · have hlt : i.now - σ.lastStreamEmit < streamingChunkMs := by
        rcases Nat.lt_or_ge (i.now - σ.lastStreamEmit) streamingChunkMs with h | h
        · exact h
        · exact absurd ⟨hb, h⟩ hst
      rw [step_rec_speech_quiet cfg σ i hrec hsp (Or.inr hlt) hov]
      simp [hrec]
    · rw [step_rec_speech_quiet cfg σ i hrec hsp (Or.inl hb) hov]
      simp [hrec]

theorem step_rec_speech_overflow_props (cfg : Config) (σ : St) (i : Inp)
    (hrec : σ.isRecordingSpeech = true) (hsp : i.isSpeech = true)
    (hov : cfg.sampleRate * 2 * 300 <
      (σ.activeRecording.length + 1) * frameBytes cfg) :
    (step cfg σ i).1.activeRecording = [] ∧
    (step cfg σ i).1.silenceBuffer = [] ∧
    (step cfg σ i).1.isRecordingSpeech = false ∧
    (step cfg σ i).2.countP (fun s => decide (s.kind = SegKind.overflowSplit)) = 1 ∧
    (step cfg σ i).2.countP (fun s => decide (s.kind = SegKind.finalSeg)) = 0 := by
  by_cases hst : cfg.enableStreaming = true ∧ streamingChunkMs ≤ i.now - σ.lastStreamEmit
  · simp [step, vadUpdate, streamEmit, finalizeEmit, overflowEmit, hrec, hsp, hst.1,
      hst.2, hov, Nat.sub_self, List.length_append, silenceThresholdMs]
  · rcases Bool.eq_false_or_eq_true cfg.enableStreaming with hb | hb
    · have hlt : i.now - σ.lastStreamEmit < streamingChunkMs := by
        rcases Nat.lt_or_ge (i.now - σ.lastStreamEmit) streamingChunkMs with h | h
        · exact h
        · exact absurd ⟨hb, h⟩ hst
      simp [step, vadUpdate, streamEmit, finalizeEmit, overflowEmit, hrec, hsp, hb,
        Nat.not_le.mpr hlt, hov, Nat.sub_self, List.length_append, silenceThresholdMs]
    · simp [step, vadUpdate, streamEmit, finalizeEmit, overflowEmit, hrec, hsp, hb,
        hov, Nat.sub_self, List.length_append, silenceThresholdMs]

theorem step_speech_advance (cfg : Config) (σ : St) (i : Inp)
    (h16 : cfg.sampleRate = 16000) (hsp : i.isSpeech = true)
    (hsil : σ.silenceBuffer = []) (k : Nat)
    (hlen : σ.activeRecording.length = k % 10001)
    (hrec : σ.isRecordingSpeech = false ↔ k % 10001 = 0) :
    (step cfg σ i).1.silenceBuffer = [] ∧
    (step cfg σ i).1.activeRecording.length = (k + 1) % 10001 ∧
    ((step cfg σ i).1.isRecordingSpeech = false ↔ (k + 1) % 10001 = 0) ∧
    (step cfg σ i).2.countP (fun s => decide (s.kind = SegKind.overflowSplit)) =
      (k + 1) / 10001 - k / 10001 ∧
    (step cfg σ i).2.countP (fun s => decide (s.kind = SegKind.finalSeg)) = 0 := by
  have hfb : frameBytes cfg = 960 := by simp [frameBytes, frameMs, h16]
  by_cases hm : k % 10001 = 0
  · have hact : σ.activeRecording = [] := by
      apply List.length_eq_zero.mp
      omega
    have hov : ¬ cfg.sampleRate * 2 * 300 <
        (σ.activeRecording.length + σ.silenceBuffer.length + 1) * frameBytes cfg := by
      rw [h16, hfb, hact, hsil]
      simp
    rw [step_trigger cfg σ i (hrec.mpr hm) hsp hov]
    refine ⟨rfl, ?_, ?_, ?_, ?_⟩
    · simp [hact, hsil]; omega
    · simp; omega
    · simp; omega
    · simp
  · have hrec2 : σ.isRecordingSpeech = true := by
      rcases Bool.eq_false_or_eq_true σ.isRecordingSpeech with hb | hb
      · exact hb
      · exact absurd (hrec.mp hb) hm
    have hcond : cfg.sampleRate * 2 * 300 <
        (σ.activeRecording.length + 1) * frameBytes cfg ↔ k % 10001 = 10000 := by
      rw [h16, hfb, hlen]
      omega
    by_cases hten : k % 10001 = 10000
    · obtain ⟨a1, a2, a3, a4, a5⟩ :=
        step_rec_speech_overflow_props cfg σ i hrec2 hsp (hcond.mpr hten)
      refine ⟨a2, ?_, ?_, ?_, a5⟩
      · rw [a1]; simp; omega
      · rw [a3]; exact ⟨fun _ => by omega, fun _ => rfl⟩
      · rw [a4]; omega
    · obtain ⟨a1, a2, a3, a4, a5⟩ :=
        step_rec_speech_props cfg σ i hrec2 hsp (fun h => hten (hcond.mp h))
      refine ⟨a2, ?_, ?_, ?_, a5⟩
      · rw [a1, hlen]; omega
      · rw [a3]; exact ⟨fun h => absurd h (by decide), fun h => absurd h (by omega)⟩
      · rw [a4]; omega

theorem run_all_speech (cfg : Config) (h16 : cfg.sampleRate = 16000) :
    ∀ (inputs : List Inp), (∀ i ∈ inputs, i.isSpeech = true) →
    ∀ (k : Nat) (σ : St), σ.silenceBuffer = [] →
      σ.activeRecording.length = k % 10001 →
      (σ.isRecordingSpeech = false ↔ k % 10001 = 0) →
      (runFrom cfg σ inputs).2.countP
          (fun s => decide (s.kind = SegKind.overflowSplit)) =
        (k + inputs.length) / 10001 - k / 10001 ∧
      (runFrom cfg σ inputs).2.countP
        (fun s => decide (s.kind = SegKind.finalSeg)) = 0 := by
  intro inputs
  induction inputs with
  | nil => intro _ k σ _ _ _; simp [runFrom_nil]
  | cons i rest ih =>
    intro hall k σ hsil hlen hrec
    have hi := hall i (List.mem_cons_self i rest)
    obtain ⟨a1, a2, a3, a4, a5⟩ := step_speech_advance cfg σ i h16 hi hsil k hlen hrec
    obtain ⟨b1, b2⟩ := ih (fun j hj => hall j (List.mem_cons_of_mem i hj)) (k + 1)
      (step cfg σ i).1 a1 a2 a3
    rw [runFrom_cons]
    simp only [List.countP_append]
    refine ⟨?_, by rw [a5, b2]⟩
    rw [a4, b1]
    simp only [List.length_cons]
    omega

theorem hq_vadUpdate (cfg : Config) (σ : St) (f : Frame) (isSp : Bool) (now : Nat)
    (hJ : σ.isRecordingSpeech = false → σ.activeRecording = []) :
    (vadUpdate cfg σ f isSp now).isRecordingSpeech = false →
      (vadUpdate cfg σ f isSp now).activeRecording = [] := by
  simp only [vadUpdate]
  split_ifs <;> intro h <;> first
    | exact hJ h
    | simp_all

theorem hq_streamEmit (cfg : Config) (isSp : Bool) (now : Nat) (σ : St)
    (hJ : σ.isRecordingSpeech = false → σ.activeRecording = []) :
    (streamEmit cfg isSp now σ).1.isRecordingSpeech = false →
      (streamEmit cfg isSp now σ).1.activeRecording = [] := by
  simp only [streamEmit]
  split_ifs <;> exact hJ

theorem hq_finalizeEmit (now : Nat) (σ : St)
    (hJ : σ.isRecordingSpeech = false → σ.activeRecording = []) :
    (finalizeEmit now σ).1.isRecordingSpeech = false →
      (finalizeEmit now σ).1.activeRecording = [] := by
  simp only [finalizeEmit]
  split_ifs <;> intro h <;> first
    | exact hJ h
    | rfl

theorem overflowEmit_bound (cfg : Config) (now : Nat) (σ : St)
    (h16 : cfg.sampleRate = 16000)
    (hJ : σ.isRecordingSpeech = false → σ.activeRecording = []) :
    (overflowEmit cfg now σ).1.activeRecording.length ≤ 10000 ∧
    ((overflowEmit cfg now σ).1.isRecordingSpeech = false →
      (overflowEmit cfg now σ).1.activeRecording = []) := by
  have hfb : frameBytes cfg = 960 := by simp [frameBytes, frameMs, h16]
  rcases Bool.eq_false_or_eq_true σ.isRecordingSpeech with hb | hb
  · by_cases hc : cfg.sampleRate * 2 * 300 <
        σ.activeRecording.length * frameBytes cfg
    · rw [overflowEmit_fire cfg now σ ⟨hb, hc⟩]
      simp
    · rw [overflowEmit_skip cfg now σ (fun hcon => hc hcon.2)]
      refine ⟨?_, ?_⟩
      · show σ.activeRecording.length ≤ 10000
        rw [h16, hfb] at hc
        omega
      · simp [hb]
  · rw [overflowEmit_skip cfg now σ
      (fun hcon => by rw [hb] at hcon; exact absurd hcon.1 (by decide))]
    refine ⟨?_, fun _ => hJ hb⟩
    show σ.activeRecording.length ≤ 10000
    rw [hJ hb]
    simp

theorem step_active_bound (cfg : Config) (σ : St) (i : Inp)
    (h16 : cfg.sampleRate = 16000)
    (hJ : σ.isRecordingSpeech = false → σ.activeRecording = []) :
    ((step cfg σ i).1.isRecordingSpeech = false →
      (step cfg σ i).1.activeRecording = []) ∧
    (step cfg σ i).1.activeRecording.length ≤ 10000 := by
  have hq1 := hq_vadUpdate cfg σ i.frame i.isSpeech i.now hJ
  have hq2 := hq_streamEmit cfg i.isSpeech i.now
    (vadUpdate cfg σ i.frame i.isSpeech i.now) hq1
  have hq3 := hq_finalizeEmit i.now
    (streamEmit cfg i.isSpeech i.now (vadUpdate cfg σ i.frame i.isSpeech i.now)).1 hq2
  have hb := overflowEmit_bound cfg i.now
    (finalizeEmit i.now
      (streamEmit cfg i.isSpeech i.now
        (vadUpdate cfg σ i.frame i.isSpeech i.now)).1).1 h16 hq3
  exact ⟨hb.2, hb.1⟩

theorem run_active_bound (cfg : Config) (h16 : cfg.sampleRate = 16000) :
    ∀ (inputs : List Inp) (σ : St),
      (σ.isRecordingSpeech = false → σ.activeRecording = []) →
      σ.activeRecording.length ≤ 10000 →
      ((runFrom cfg σ inputs).1.isRecordingSpeech = false →
        (runFrom cfg σ inputs).1.activeRecording = []) ∧
      (runFrom cfg σ inputs).1.activeRecording.length ≤ 10000 := by
  intro inputs
  induction inputs with
  | nil => intro σ hJ hL; exact ⟨hJ, hL⟩
  | cons i rest ih =>
    intro σ hJ hL
    obtain ⟨c1, c2⟩ := step_active_bound cfg σ i h16 hJ
    rw [runFrom_cons]
    exact ih (step cfg σ i).1 c1 c2

/-- C4: for continuous speech longer than the 300 s overflow cap at
sample rate 16000 (more than 10000 frames), at least one overflow-split
segment is emitted and no final segment is (so every overflow-split
precedes any final); the Active Recording never exceeds the cap plus one
frame (it in fact stays within the cap after every frame); and whenever
the overflow valve emits, it clears the Active Recording and resets the
recording flag. -/
theorem overflow_split_behavior :
    (∀ (cfg : Config) (t0 : Nat) (inputs : List Inp),
      cfg.sampleRate = 16000 → (∀ i ∈ inputs, i.isSpeech = true) →
      10001 ≤ inputs.length →
      1 ≤ (runChunker cfg t0 inputs).2.countP
          (fun s => decide (s.kind = SegKind.overflowSplit)) ∧
      (runChunker cfg t0 inputs).2.countP
        (fun s => decide (s.kind = SegKind.finalSeg)) = 0) ∧
    (∀ (cfg : Config) (t0 : Nat) (inputs : List Inp),
      cfg.sampleRate = 16000 →
      (runChunker cfg t0 inputs).1.activeRecording.length ≤
        overflowFrames cfg + 1) ∧
    (∀ (cfg : Config) (now : Nat) (σ : St),
      (overflowEmit cfg now σ).2 ≠ [] →
      (overflowEmit cfg now σ).1.activeRecording = [] ∧
      (overflowEmit cfg now σ).1.isRecordingSpeech = false) := by
  refine ⟨?_, ?_, ?_⟩
  · intro cfg t0 inputs h16 hall hlong
    obtain ⟨h1, h2⟩ := run_all_speech cfg h16 inputs hall 0 (initSt cfg t0) rfl rfl
      (by simp [initSt])
    refine ⟨?_, h2⟩
    simp only [runChunker]
    rw [h1]
    omega
  · intro cfg t0 inputs h16
    have hof : overflowFrames cfg = 10000 := by
      rw [overflowFrames, h16]
      simp [frameBytes, frameMs, h16]
    obtain ⟨_, h2⟩ := run_active_bound cfg h16 inputs (initSt cfg t0)
      (fun _ => rfl) (by simp [initSt])
    simp only [runChunker]
    rw [hof]
    omega
  · intro cfg now σ hne
    by_cases hc : σ.isRecordingSpeech = true ∧
        cfg.sampleRate * 2 * 300 < σ.activeRecording.length * frameBytes cfg
    · rw [overflowEmit_fire cfg now σ hc]
      exact ⟨rfl, rfl⟩
    · rw [overflowEmit_skip cfg now σ hc] at hne
      exact absurd rfl hne

/-- C4 witness: the three parts applied at a concrete configuration, a
10001-frame all-speech input, and a concrete overflowing state. -/
theorem overflow_split_behavior_witness :
    (1 ≤ (runChunker ⟨16000, 30, false, false⟩ 0
        (List.replicate 10001 ⟨0, true, 0⟩)).2.countP
          (fun s => decide (s.kind = SegKind.overflowSplit)) ∧
      (runChunker ⟨16000, 30, false, false⟩ 0
        (List.replicate 10001 ⟨0, true, 0⟩)).2.countP
          (fun s => decide (s.kind = SegKind.finalSeg)) = 0) ∧
    (runChunker ⟨16000, 30, false, false⟩ 0
        (List.replicate 10001 ⟨0, true, 0⟩)).1.activeRecording.length ≤
      overflowFrames ⟨16000, 30, false, false⟩ + 1 ∧
    ((overflowEmit ⟨16000, 30, false, false⟩ 5
        ⟨List.replicate 10001 0, [], 0, 0, 0, true, true⟩).1.activeRecording = [] ∧
      (overflowEmit ⟨16000, 30, false, false⟩ 5
        ⟨List.replicate 10001 0, [], 0, 0, 0, true, true⟩).1.isRecordingSpeech = false) :=
  ⟨overflow_split_behavior.1 ⟨16000, 30, false, false⟩ 0
      (List.replicate 10001 ⟨0, true, 0⟩) rfl
      (fun i hi => by rw [List.eq_of_mem_replicate hi])
      (by simp only [List.length_replicate]; exact Nat.le_refl 10001),
   overflow_split_behavior.2.1 ⟨16000, 30, false, false⟩ 0
      (List.replicate 10001 ⟨0, true, 0⟩) rfl,
   overflow_split_behavior.2.2 ⟨16000, 30, false, false⟩ 5
      ⟨List.replicate 10001 0, [], 0, 0, 0, true, true⟩
      (by
        rw [overflowEmit_fire ⟨16000, 30, false, false⟩ 5
          ⟨List.replicate 10001 0, [], 0, 0, 0, true, true⟩
          ⟨rfl, by simp only [List.length_replicate]; norm_num [frameBytes, frameMs]⟩]
        exact List.cons_ne_nil _ _)⟩

set_option maxRecDepth 8000 in
/-- C9 counterexample: a capture stream that closes after 1000 bytes at
frame_bytes = 960 yields a trailing 40-byte frame, contradicting the
claim that every yielded frame contains exactly 960 bytes. -/
theorem short_last_frame_counterexample :
    (framesOf 960 (List.replicate 1000 0)).map List.length = [960, 40] ∧
    ¬ (∀ l ∈ framesOf 960 (List.replicate 1000 0), l.length = 960) := by
  have h1 : (List.replicate 1000 (0 : Nat)).drop 960 = List.replicate 40 0 := by decide
  have h2 : (List.replicate 40 (0 : Nat)).drop 960 = [] := by decide
  have hF : framesOf 960 (List.replicate 1000 (0 : Nat)) =
      [(List.replicate 1000 (0 : Nat)).take 960, (List.replicate 40 (0 : Nat)).take 960] := by
    rw [framesOf_cons 960 _ (by norm_num) (by decide), h1,
      framesOf_cons 960 _ (by norm_num) (by decide), h2, framesOf_nil]
  rw [hF]
  constructor
  · decide
  · decide

end Sauron
